import Mathlib

/-!
Verification of the aggregation logic of the webinar dashboard
(`src/dataviz2.py`).

Strings from the source data are modelled as lists of character codes
(`List Nat`); `enc` turns a Lean string literal into that representation.
Python's ASCII case operations (`str.lower`, `str.title`), `str.strip`,
`str.split`, `str.replace` and `int()` are modelled on those code lists.
Numeric cells (`registrations`, `time in session (minutes)`,
`actual duration (minutes)`) are modelled as rationals, matching the
loader's coercion of every numeric cell to a number (unparsable cells
become 0, so the fields are total).  `pd.to_datetime`-based period
formatting is abstracted: the monthly aggregates are parameterised by the
function `ym : Row → List Nat` that assigns each row its computed
`yearmonth` key, since none of the verified properties depend on the
particular formatting of that key.
-/

namespace Dataviz

/-- Encoding of a string literal as its list of character codes. -/
def enc (s : String) : List Nat := s.data.map Char.toNat

/-- ASCII lower-casing of one character code (model of Python `str.lower`
per character). -/
def lowerN (n : Nat) : Nat := if 65 ≤ n ∧ n ≤ 90 then n + 32 else n

/-- ASCII upper-casing of one character code. -/
def upperN (n : Nat) : Nat := if 97 ≤ n ∧ n ≤ 122 then n - 32 else n

/-- ASCII letter test for one character code. -/
def isAlphaN (n : Nat) : Bool := decide ((65 ≤ n ∧ n ≤ 90) ∨ (97 ≤ n ∧ n ≤ 122))

/-- Model of Python `str.lower` (ASCII). -/
def pyLower (s : List Nat) : List Nat := s.map lowerN

/-- Helper for `pyTitle`: the boolean records whether the previous
character was a letter (continuing a word). -/
def titleAux : Bool → List Nat → List Nat
  | _, [] => []
  | prev, n :: ns => (if prev then lowerN n else upperN n) :: titleAux (isAlphaN n) ns

/-- Model of Python `str.title` (ASCII): the first letter of every word is
upper-cased, every other letter lower-cased. -/
def pyTitle (s : List Nat) : List Nat := titleAux false s

/-- Whitespace test (space, tab, linefeed, vertical tab, formfeed,
carriage return), as stripped by Python `str.strip`. -/
def isSpaceN (n : Nat) : Bool := decide (n = 32 ∨ n = 9 ∨ n = 10 ∨ n = 11 ∨ n = 12 ∨ n = 13)

/-- Model of Python `str.strip`: drop leading and trailing whitespace. -/
def pyStrip (s : List Nat) : List Nat :=
  ((s.dropWhile isSpaceN).reverse.dropWhile isSpaceN).reverse

/-- Model of Python `str.split(sep)` for a one-character separator: the
result always has at least one piece. -/
def pySplit (sep : Nat) : List Nat → List (List Nat)
  | [] => [[]]
  | c :: cs =>
    if c = sep then [] :: pySplit sep cs
    else
      match pySplit sep cs with
      | p :: ps => (c :: p) :: ps
      | [] => [[c]]

/-- Test that `pat` is an initial segment of `s`. -/
def leadsWith : List Nat → List Nat → Bool
  | [], _ => true
  | _ :: _, [] => false
  | p :: ps, c :: cs => decide (p = c) && leadsWith ps cs

/-- Helper for `pyReplaceAll`: the counter holds how many characters of a
matched occurrence of the pattern remain to be dropped. -/
def replAux (pat : List Nat) : List Nat → Nat → List Nat
  | [], _ => []
  | _ :: cs, n + 1 => replAux pat cs n
  | c :: cs, 0 =>
    if leadsWith pat (c :: cs) then replAux pat cs (pat.length - 1)
    else c :: replAux pat cs 0

/-- Model of Python `s.replace(pat, '')`: delete every non-overlapping
occurrence of `pat`, scanning left to right. -/
def pyReplaceAll (pat s : List Nat) : List Nat :=
  if pat = [] then s else replAux pat s 0

/-- Decimal digit test for one character code. -/
def digitN (n : Nat) : Bool := decide (48 ≤ n ∧ n ≤ 57)

/-- Test that every character of the list is a decimal digit. -/
def allDigits (s : List Nat) : Bool := s.all digitN

/-- Numeric value of a list of decimal digit codes. -/
def digitsVal (s : List Nat) : Nat := s.foldl (fun acc d => acc * 10 + (d - 48)) 0

/-- Model of Python `int(s)` on a string: strip whitespace, allow one
optional leading sign, then require a nonempty run of decimal digits.
(Python additionally accepts underscore digit separators and non-ASCII
digits; those are outside the model.) -/
def pyInt (s : List Nat) : Option Int :=
  let t := pyStrip s
  if t.headD 0 = 43 ∧ t.tail ≠ [] ∧ allDigits t.tail then some ((digitsVal t.tail : Int))
  else if t.headD 0 = 45 ∧ t.tail ≠ [] ∧ allDigits t.tail then some (-(digitsVal t.tail : Int))
  else if t ≠ [] ∧ allDigits t then some ((digitsVal t : Int)) else none

/-- Keep-first deduplication, with an accumulator of already seen values. -/
def dedupFirstAux {α : Type} [DecidableEq α] (seen : List α) : List α → List α
  | [] => []
  | a :: as => if a ∈ seen then dedupFirstAux seen as
               else a :: dedupFirstAux (a :: seen) as

/-- Distinct values of a list, keeping the first occurrence of each (model
of pandas `unique`). -/
def dedupFirst {α : Type} [DecidableEq α] (l : List α) : List α := dedupFirstAux [] l

/-- Number of distinct values of a list (model of pandas `nunique`). -/
def nunique {α : Type} [DecidableEq α] (l : List α) : Nat := (dedupFirst l).length

/-- One row of the loaded spreadsheet, with normalized column names.  All
text cells are code lists; `region` is optional because region cells can
be missing (pandas `NaN`); the numeric cells are total rationals because
the loader coerces them (unparsable values become 0). -/
structure Row where
  webinar_id : List Nat
  actual_start_time : List Nat
  registrations : ℚ
  attendee_type : List Nat
  attended : List Nat
  workforce : List Nat
  time_in_session : ℚ
  organization : List Nat
  actual_duration : ℚ
  region : Option (List Nat)
  year : List Nat
  month : List Nat
  email : List Nat
deriving DecidableEq, Inhabited

/-- The nursing-facility classification list hardcoded in the source
(lines 259-265). -/
def nursing_list : List (List Nat) :=
  [enc "Mental Health Treatment, Nursing Facility",
   enc "Mental Health Treatment, Nursing Facility, Substance Use Treatment",
   enc "Mental Health Treatment, Substance Use Treatment, Nursing Facility",
   enc "Nursing Facility",
   enc "Nursing Facility, Mental Health Treatment",
   enc "Nursing Facility, Mental Health Treatment, Other",
   enc "Nursing Facility, Mental Health Treatment, Substance Use Treatment",
   enc "Nursing Facility, Other",
   enc "Nursing Facility, Substance Use Treatment",
   enc "Nursing Facility, Substance Use Treatment, Mental Health Treatment",
   enc "Nursing Facility,Mental Health Treatment,QIN-QIO",
   enc "Nursing Facility,Mental Health Treatment,Substance Use Treatment,QIN-QIO",
   enc "Nursing Facility,QIN-QIO",
   enc "Nursing Facility,QIN-QIO,Mental Health Treatment",
   enc "Nursing Facility,QIN-QIO,Other",
   enc "Other, Nursing Facility",
   enc "Substance Use Treatment, Nursing Facility"]

/-- Facility classification (source line 315): `'Nursing Facility' if x in
nursing_list else 'Non-Nursing Facility'`. -/
def facility_type (nl : List (List Nat)) (w : List Nat) : List Nat :=
  if w ∈ nl then enc "Nursing Facility" else enc "Non-Nursing Facility"

/-- Keep-first row deduplication by a key, with an accumulator of already
seen keys (model of `DataFrame.drop_duplicates(subset=...)`). -/
def dropDupByAux {κ : Type} [DecidableEq κ] (key : Row → κ) (seen : List κ) :
    List Row → List Row
  | [] => []
  | r :: rs => if key r ∈ seen then dropDupByAux key seen rs
               else r :: dropDupByAux key (key r :: seen) rs

/-- Model of `df.drop_duplicates(subset=...)` with the default
`keep='first'`. -/
def dropDupBy {κ : Type} [DecidableEq κ] (key : Row → κ) (rows : List Row) : List Row :=
  dropDupByAux key [] rows

/-- Session identity used by the registrant KPI: the pair
`('webinar id', 'actual start time')`. -/
def sessionKey (r : Row) : List Nat × List Nat := (r.webinar_id, r.actual_start_time)

/-- Total registrants KPI (source line 285):
`df.drop_duplicates(subset=['webinar id', 'actual start time'])['registrations'].sum()`. -/
def registrants (rows : List Row) : ℚ :=
  ((dropDupBy sessionKey rows).map Row.registrations).sum

/-- First row of `rows` whose key is `k` (model of taking the first member
of a group). -/
def firstRowWith {κ : Type} [DecidableEq κ] (key : Row → κ) (k : κ) (rows : List Row) : Row :=
  (rows.filter (fun r => decide (key r = k))).headD default

/-- Spec-side formulation of the registrant KPI: one term per distinct
session key, each the `registrations` value of the first row of that
session. -/
def sessionRegSum (rows : List Row) : ℚ :=
  ((dedupFirst (rows.map sessionKey)).map
    (fun k => (firstRowWith sessionKey k rows).registrations)).sum

/-- Attendee filter of the KPI block (source line 286):
`df['attendee type'].str.title().isin(['Attendee', 'Guest'])` together
with `df['attended'] == 'Yes'`. -/
def attendee_filtered_df (rows : List Row) : List Row :=
  rows.filter (fun r =>
    decide ((pyTitle r.attendee_type = enc "Attendee" ∨
             pyTitle r.attendee_type = enc "Guest") ∧
            r.attended = enc "Yes"))

/-- Total attendees KPI (source line 287): row count of the attendee
filter. -/
def total_attendees (rows : List Row) : Nat := (attendee_filtered_df rows).length

/-- Nursing-facility attendees KPI (source line 288): attendee-filtered
rows whose `workforce` is in the classification list. -/
def nursing_facility_attendees (nl : List (List Nat)) (rows : List Row) : Nat :=
  ((attendee_filtered_df rows).filter (fun r => decide (r.workforce ∈ nl))).length

/-- Non-nursing-facility attendees KPI (source line 289): attendee-filtered
rows whose `workforce` is not in the classification list (`~isin`). -/
def non_nursing_facility_attendees (nl : List (List Nat)) (rows : List Row) : Nat :=
  ((attendee_filtered_df rows).filter (fun r => !(decide (r.workforce ∈ nl)))).length

/-- Engagement hours KPI (source line 290): sum of
`time in session (minutes)` over the attendee-filtered rows, divided
by 60. -/
def total_engagement_hours (rows : List Row) : ℚ :=
  ((attendee_filtered_df rows).map Row.time_in_session).sum / 60

/-- Total organizations KPI (source line 291):
`df['organization'].nunique()`, as a Python integer. -/
def total_orgs (rows : List Row) : Int := nunique (rows.map Row.organization)

/-- Nursing-facility organizations KPI (source line 292): distinct
organizations among rows whose `workforce` is in the classification
list. -/
def nursing_facility_orgs (nl : List (List Nat)) (rows : List Row) : Int :=
  nunique ((rows.filter (fun r => decide (r.workforce ∈ nl))).map Row.organization)

/-- Non-nursing-facility organizations KPI (source line 293): defined by
subtraction, `total_orgs - nursing_facility_orgs`. -/
def non_nursing_facility_orgs (nl : List (List Nat)) (rows : List Row) : Int :=
  total_orgs rows - nursing_facility_orgs nl rows

/-- Total unique session duration KPI (source line 294):
`df.groupby('webinar id')['actual duration (minutes)'].first().sum() / 60`,
one term per distinct webinar id, each the duration of the first row of
that webinar. -/
def total_webinar_duration (rows : List Row) : ℚ :=
  ((dedupFirst (rows.map Row.webinar_id)).map
    (fun k => (firstRowWith Row.webinar_id k rows).actual_duration)).sum / 60

/-- Grouping of rows by a key: distinct keys paired with the rows carrying
each key.  (pandas sorts group keys; the verified properties do not depend
on the order of the groups, so keys are listed in order of first
occurrence.) -/
def groupsOf {κ : Type} [DecidableEq κ] (key : Row → κ) (rows : List Row) :
    List (κ × List Row) :=
  (dedupFirst (rows.map key)).map (fun k => (k, rows.filter (fun r => decide (key r = k))))

/-- Monthly analysis table (source lines 321-324): per `yearmonth`, the
count of rows whose lower-cased `attendee type` is `'attendee'` and the
count of rows with `attended == 'Yes'`. -/
def monthly_data (ym : Row → List Nat) (rows : List Row) : List (List Nat × Nat × Nat) :=
  (groupsOf ym rows).map (fun g =>
    (g.1,
     g.2.countP (fun r => decide (pyLower r.attendee_type = enc "attendee")),
     g.2.countP (fun r => decide (r.attended = enc "Yes"))))

/-- Attendee/Guest pre-filter of the workforce breakdown (source line 342):
`df['attendee type'].str.title().isin(['Attendee', 'Guest'])`. -/
def attendee_guest_df (rows : List Row) : List Row :=
  rows.filter (fun r =>
    decide (pyTitle r.attendee_type = enc "Attendee" ∨
            pyTitle r.attendee_type = enc "Guest"))

/-- Registration aggregate of the workforce breakdown (source line 345):
grouped by `(yearmonth, facility_type)`, counting rows whose lower-cased
`attendee type` is `'attendee'`. -/
def registrations_by_workforce (ym : Row → List Nat) (nl : List (List Nat))
    (rows : List Row) : List ((List Nat × List Nat) × Nat) :=
  (groupsOf (fun r => (ym r, facility_type nl r.workforce)) rows).map (fun g =>
    (g.1, g.2.countP (fun r => decide (pyLower r.attendee_type = enc "attendee"))))

/-- Attendance aggregate of the workforce breakdown (source line 346):
Attendee/Guest rows with `attended == 'Yes'`, grouped by
`(yearmonth, facility_type)`, sized. -/
def attendance_by_workforce (ym : Row → List Nat) (nl : List (List Nat))
    (rows : List Row) : List ((List Nat × List Nat) × Nat) :=
  (groupsOf (fun r => (ym r, facility_type nl r.workforce))
    ((attendee_guest_df rows).filter (fun r => decide (r.attended = enc "Yes")))).map
    (fun g => (g.1, g.2.length))

/-- Association-list lookup by key. -/
def lookupKey {κ : Type} [DecidableEq κ] : List (κ × Nat) → κ → Option Nat
  | [], _ => none
  | (k, v) :: rest, q => if q = k then some v else lookupKey rest q

/-- Merged monthly workforce table (source line 349):
`pd.merge(registrations_by_workforce, attendance_by_workforce,
on=['yearmonth', 'facility_type'], how='left').fillna(0)` — one output row
per registration-aggregate row, with the attendance value looked up by key
and missing attendance filled with 0. -/
def workforce_detail_monthly (ym : Row → List Nat) (nl : List (List Nat))
    (rows : List Row) : List ((List Nat × List Nat) × Nat × Nat) :=
  (registrations_by_workforce ym nl rows).map (fun e =>
    (e.1, e.2, (lookupKey (attendance_by_workforce ym nl rows) e.1).getD 0))

/-- Regional performance table (source line 364):
`df.groupby('region').agg(registrations=('attended', 'count'),
attendees=('attended', lambda x: (x == 'Yes').sum()))` — the registration
column is the bare size of the group, the attendee column counts
`attended == 'Yes'`.  Rows with a missing region are dropped by
`groupby`. -/
def regional_performance (rows : List Row) : List (List Nat × Nat × Nat) :=
  (dedupFirst (rows.filterMap Row.region)).map (fun g =>
    (g,
     (rows.filter (fun r => decide (r.region = some g))).length,
     (rows.filter (fun r => decide (r.region = some g))).countP
       (fun r => decide (r.attended = enc "Yes"))))

/-- Per-region monthly comparison table (source lines 395-397): rows of the
selected region pre-filtered to title-cased `attendee type` in
`['Attendee', 'Guest']`, grouped by `yearmonth`; registrations is the bare
count of the filtered group, attendees counts `attended == 'Yes'`. -/
def monthly_comp (ym : Row → List Nat) (reg : List Nat) (rows : List Row) :
    List (List Nat × Nat × Nat) :=
  (groupsOf ym (rows.filter (fun r =>
      decide (r.region = some reg) &&
      decide (pyTitle r.attendee_type = enc "Attendee" ∨
              pyTitle r.attendee_type = enc "Guest")))).map (fun g =>
    (g.1, g.2.length, g.2.countP (fun r => decide (r.attended = enc "Yes"))))

/-- Region shortening applied at load time (source line 34):
`df['region'].str.split('-').str[0].str.strip()` — split on `'-'`, keep
the first piece, strip whitespace. -/
def regionShorten (s : List Nat) : List Nat := pyStrip ((pySplit 45 s).headD [])

/-- The literal `'Region '` removed by the region sort key. -/
def regionPat : List Nat := enc "Region "

/-- Sort key of the region orderings (source lines 103, 366, 375):
`int(r.replace('Region ', ''))`, which can fail. -/
def regionKey (s : List Nat) : Option Int := pyInt (pyReplaceAll regionPat s)

/-- The integer a region value sorts by, once all keys are known to
parse. -/
def keyInt (s : List Nat) : Int := (regionKey s).getD 0

/-- Boolean comparison of two region values by their sort keys. -/
def leKey (s t : List Nat) : Bool := decide (keyInt s ≤ keyInt t)

/-- Insertion of a value into a list assumed sorted for `le` (stable, as
Python `sorted` is). -/
def insertSorted {α : Type} (le : α → α → Bool) (a : α) : List α → List α
  | [] => [a]
  | b :: bs => if le a b then a :: b :: bs else b :: insertSorted le a bs

/-- Stable insertion sort, the model of Python `sorted(..., key=...)`. -/
def insertionSortBy {α : Type} (le : α → α → Bool) : List α → List α
  | [] => []
  | a :: as => insertSorted le a (insertionSortBy le as)

/-- Model of `sorted(regions, key=lambda r: int(r.replace('Region ', '')))`
over a list of region values: `none` models the exception Python raises
when some key fails to parse as an int. -/
def sorted_regions (l : List (List Nat)) : Option (List (List Nat)) :=
  if l.all (fun s => (regionKey s).isSome) then some (insertionSortBy leKey l) else none

/-- Distinct non-null region values of a record set, the list the region
orderings are applied to (`df['region'].dropna().unique()`). -/
def distinctRegions (rows : List Row) : List (List Nat) :=
  dedupFirst (rows.filterMap Row.region)

/-- The exact shape `'Region '` followed by a nonempty run of decimal
digits, the shape claim C10 says is required of every region value. -/
def regionForm (s : List Nat) : Prop :=
  leadsWith regionPat s = true ∧ s.drop 7 ≠ [] ∧ allDigits (s.drop 7) = true

instance (s : List Nat) : Decidable (regionForm s) :=
  decidable_of_iff
    (leadsWith regionPat s = true ∧ s.drop 7 ≠ [] ∧ allDigits (s.drop 7) = true)
    Iff.rfl

/-- A loaded data frame: the set of column names present in the file
(after name normalization) together with the rows.  Row fields are total
in the model; `cols` records which columns actually exist, and every
column access in the script model is guarded by it. -/
structure DFrame where
  cols : List String
  rows : List Row

/-- The fixed KPI values of the dashboard's KPI block. -/
structure KPISet where
  registrantsV : ℚ
  attendeesV : Nat
  nursingAttendeesV : Nat
  nonNursingAttendeesV : Nat
  engagementHoursV : ℚ
  totalOrgsV : Int
  nursingOrgsV : Int
  nonNursingOrgsV : Int
  sessionDurationV : ℚ

/-- The KPI block (source lines 285-294) as one record. -/
def computeKPIs (nl : List (List Nat)) (rows : List Row) : KPISet :=
  { registrantsV := registrants rows
    attendeesV := total_attendees rows
    nursingAttendeesV := nursing_facility_attendees nl rows
    nonNursingAttendeesV := non_nursing_facility_attendees nl rows
    engagementHoursV := total_engagement_hours rows
    totalOrgsV := total_orgs rows
    nursingOrgsV := nursing_facility_orgs nl rows
    nonNursingOrgsV := non_nursing_facility_orgs nl rows
    sessionDurationV := total_webinar_duration rows }

/-- The columns the KPI block reads (source lines 285-294). -/
def kpiCols : List String :=
  ["webinar id", "actual start time", "registrations", "attendee type",
   "attended", "workforce", "time in session (minutes)", "organization",
   "actual duration (minutes)"]

/-- Observable outcome of one run of the dashboard script: the KPI set
displayed (if any), whether the PDF was generated, whether the monthly
and regional chart sections were rendered, and whether the run ended in
an error or crash before the end of the script. -/
structure ScriptOut where
  kpis : Option KPISet
  pdfReady : Bool
  monthlyDone : Bool
  regionalDone : Bool
  halted : Bool

/-- The dashboard body after PDF generation (source lines 284-404): the
KPI block runs first and crashes on the first missing column (KeyError,
no KPI display); otherwise the KPIs are displayed, and only then are
`year`/`month` required (source lines 313-317, caught KeyError followed by
`st.stop()`); the regional sections are guarded by `'region' in
df.columns` and their absence only prints an error. -/
def dashBody (d : DFrame) (rows : List Row) (pdfOk : Bool) : ScriptOut :=
  if kpiCols.all (fun c => decide (c ∈ d.cols)) then
    let k := computeKPIs nursing_list rows
    if "year" ∈ d.cols ∧ "month" ∈ d.cols then
      ⟨some k, pdfOk, true, decide ("region" ∈ d.cols), false⟩
    else ⟨some k, pdfOk, false, false, true⟩
  else ⟨none, pdfOk, false, false, true⟩

/-- Model of `load_data`'s region normalization (source lines 32-34): when
a region column exists, every region value is shortened. -/
def load_data (d : DFrame) : DFrame :=
  if "region" ∈ d.cols then
    ⟨d.cols, d.rows.map (fun r => { r with region := r.region.map regionShorten })⟩
  else d

/-- One run of the whole script, as far as column presence decides its
control flow.  The loader (source line 29) indexes both numeric columns
unguarded, and its generic handler turns that into "no data".  PDF
generation (source lines 64-102) wraps only the `year`/`month`/`workforce`
derived fields in try/except; its later aggregations read
`attendee type`, `attended` and `region` unguarded, so their absence
crashes the script before the KPI block.  Errors that depend on cell
values rather than on column presence (date parsing, region sort keys)
are outside this model. -/
def runDashboard (d : DFrame) : ScriptOut :=
  if "actual duration (minutes)" ∈ d.cols ∧ "time in session (minutes)" ∈ d.cols then
    if "year" ∈ d.cols ∧ "month" ∈ d.cols ∧ "workforce" ∈ d.cols then
      if "attendee type" ∈ d.cols ∧ "attended" ∈ d.cols ∧ "region" ∈ d.cols then
        dashBody d (load_data d).rows true
      else ⟨none, false, false, false, true⟩
    else dashBody d (load_data d).rows false
  else ⟨none, false, false, false, true⟩

/-- A sample row used by the concrete instantiations below. -/
def baseRow : Row :=
  { webinar_id := enc "W1"
    actual_start_time := enc "2024-01-02 10:00"
    registrations := 25
    attendee_type := enc "Attendee"
    attended := enc "Yes"
    workforce := enc "Clinic"
    time_in_session := 30
    organization := enc "Org A"
    actual_duration := 60
    region := some (enc "Region 1")
    year := enc "2024"
    month := enc "1"
    email := enc "a@x.org" }

/-- Two sample rows of one webinar with different recorded durations. -/
def c3rowA : Row := { baseRow with webinar_id := enc "W9", actual_duration := 60 }

/-- Second sample row of the same webinar, with another duration. -/
def c3rowB : Row := { baseRow with webinar_id := enc "W9", actual_duration := 90 }

/-- A sample row that registers but does not attend. -/
def c6row : Row := { baseRow with attended := enc "No" }

/-- A record set whose only rows are two non-attendee (Panelist) rows of one
region sharing one email address. -/
def c7rows : List Row :=
  [{ baseRow with
      attendee_type := enc "Panelist"
      attended := enc "No"
      email := enc "p@x.org" },
   { baseRow with
      webinar_id := enc "W2"
      attendee_type := enc "Panelist"
      attended := enc "No"
      email := enc "p@x.org" }]

/-- A one-row record set with an ordinary attendee. -/
def c7wrows : List Row := [baseRow]

/-- A data frame holding every KPI-block column but no `year`/`month`
column. -/
def c8frame : DFrame := ⟨kpiCols, []⟩

/-- A one-row data frame with a region column and a hyphenated region
value. -/
def c9frame : DFrame :=
  ⟨["region"], [{ baseRow with region := some (enc " Region 4 - North") }]⟩

/-- A record set whose only region value is the bare string `'7'`. -/
def c10rows : List Row := [{ baseRow with region := some (enc "7") }]

/-- A record set with two well-formed region values out of numeric order. -/
def c10wrows : List Row :=
  [{ baseRow with region := some (enc "Region 10") },
   { baseRow with webinar_id := enc "W2", region := some (enc "Region 2") }]

/-- Splitting a list by a boolean predicate splits its length. -/
theorem length_filter_add_length_filter_not {α : Type} (l : List α) (p : α → Bool) :
    (l.filter p).length + (l.filter (fun a => !(p a))).length = l.length := by
  induction l with
  | nil => rfl
  | cons a as ih => cases h : p a <;> simp [List.filter_cons, h] <;> omega

/-- Membership in the keep-first deduplication with accumulator. -/
theorem mem_dedupFirstAux {α : Type} [DecidableEq α] (x : α) (seen l : List α) :
    x ∈ dedupFirstAux seen l ↔ x ∈ l ∧ x ∉ seen := by
  induction l generalizing seen with
  | nil => simp [dedupFirstAux]
  | cons a as ih =>
    by_cases h : a ∈ seen
    · simp only [dedupFirstAux, if_pos h, ih, List.mem_cons]
      constructor
      · rintro ⟨h1, h2⟩; exact ⟨Or.inr h1, h2⟩
      · rintro ⟨h1 | h1, h2⟩
        · exact absurd (h1 ▸ h) h2
        · exact ⟨h1, h2⟩
    · simp only [dedupFirstAux, if_neg h, List.mem_cons, ih]
      by_cases hxa : x = a
      · subst hxa; tauto
      · tauto

/-- Membership in the keep-first deduplication. -/
theorem mem_dedupFirst {α : Type} [DecidableEq α] (x : α) (l : List α) :
    x ∈ dedupFirst l ↔ x ∈ l := by
  simp [dedupFirst, mem_dedupFirstAux]

/-- The keys of a grouping are the distinct keys of the rows. -/
theorem map_fst_groupsOf {κ : Type} [DecidableEq κ] (key : Row → κ) (rows : List Row) :
    (groupsOf key rows).map Prod.fst = dedupFirst (rows.map key) := by
  simp [groupsOf, List.map_map, Function.comp_def]

/-- Lookup misses every key that is absent from the association list. -/
theorem lookupKey_eq_none {κ : Type} [DecidableEq κ] (l : List (κ × Nat)) (q : κ)
    (h : q ∉ l.map Prod.fst) : lookupKey l q = none := by
  induction l with
  | nil => rfl
  | cons e rest ih =>
    obtain ⟨k, v⟩ := e
    simp only [List.map_cons, List.mem_cons] at h
    push_neg at h
    simp only [lookupKey, if_neg h.1]
    exact ih h.2

/-- Characterization of ASCII upper-casing hitting an upper-case letter. -/
theorem upperN_eq_iff (a t : Nat) (h1 : 65 ≤ t) (h2 : t ≤ 90) :
    upperN a = t ↔ a = t ∨ a = t + 32 := by
  unfold upperN
  split_ifs with h <;> omega

/-- Characterization of ASCII lower-casing hitting a lower-case letter. -/
theorem lowerN_eq_iff (a t : Nat) (h1 : 97 ≤ t) (h2 : t ≤ 122) :
    lowerN a = t ↔ a = t ∨ a = t - 32 := by
  unfold lowerN
  split_ifs with h <;> omega

/-- A character whose lower-case form is a letter is itself a letter. -/
theorem isAlphaN_true_of (a t : Nat) (h1 : 97 ≤ t) (h2 : t ≤ 122)
    (h : a = t ∨ a = t - 32) : isAlphaN a = true := by
  simp only [isAlphaN, decide_eq_true_eq]
  omega

/-- Inside a word, title-casing agrees with lower-casing: producing a given
all-lower-case-letter suffix is the same condition for both. -/
theorem titleAux_true_iff (s t : List Nat) (ht : ∀ y ∈ t, 97 ≤ y ∧ y ≤ 122) :
    titleAux true s = t ↔ s.map lowerN = t := by
  induction s generalizing t with
  | nil => simp [titleAux]
  | cons a as ih =>
    cases t with
    | nil => simp [titleAux]
    | cons x xs =>
      have hx := ht x (by simp)
      have hxs : ∀ y ∈ xs, 97 ≤ y ∧ y ≤ 122 := fun y hy => ht y (by simp [hy])
      simp only [titleAux, List.map_cons, List.cons.injEq]
      constructor
      · rintro ⟨h1, h2⟩
        have ha : a = x ∨ a = x - 32 := (lowerN_eq_iff a x hx.1 hx.2).mp h1
        rw [isAlphaN_true_of a x hx.1 hx.2 ha] at h2
        exact ⟨h1, (ih xs hxs).mp h2⟩
      · rintro ⟨h1, h2⟩
        have ha : a = x ∨ a = x - 32 := (lowerN_eq_iff a x hx.1 hx.2).mp h1
        rw [isAlphaN_true_of a x hx.1 hx.2 ha]
        exact ⟨h1, (ih xs hxs).mpr h2⟩

/-- Title-casing a string yields the title-cased form of a single
all-letter word exactly when lower-casing it yields that word. -/
theorem titleAux_false_iff (s xs : List Nat) (x : Nat) (hx1 : 97 ≤ x) (hx2 : x ≤ 122)
    (hxs : ∀ y ∈ xs, 97 ≤ y ∧ y ≤ 122) :
    titleAux false s = (x - 32) :: xs ↔ s.map lowerN = x :: xs := by
  cases s with
  | nil => simp [titleAux]
  | cons a as =>
    simp only [titleAux, List.map_cons, List.cons.injEq]
    constructor
    · rintro ⟨h1, h2⟩
      have ha : a = x - 32 ∨ a = x := by
        have := (upperN_eq_iff a (x - 32) (by omega) (by omega)).mp h1
        omega
      have hlow : lowerN a = x := by
        rw [lowerN_eq_iff a x hx1 hx2]; omega
      rw [isAlphaN_true_of a x hx1 hx2 (by omega)] at h2
      exact ⟨hlow, (titleAux_true_iff as xs hxs).mp h2⟩
    · rintro ⟨h1, h2⟩
      have ha : a = x ∨ a = x - 32 := (lowerN_eq_iff a x hx1 hx2).mp h1
      have hup : upperN a = x - 32 := by
        rw [upperN_eq_iff a (x - 32) (by omega) (by omega)]; omega
      rw [isAlphaN_true_of a x hx1 hx2 ha]
      exact ⟨hup, (titleAux_true_iff as xs hxs).mpr h2⟩

/-- `str.title()` sends a value to `'Attendee'` exactly when `str.lower()`
sends it to `'attendee'`. -/
theorem pyTitle_attendee_iff (v : List Nat) :
    pyTitle v = enc "Attendee" ↔ pyLower v = enc "attendee" := by
  have h1 : enc "Attendee" = (97 - 32) :: enc "ttendee" := by decide
  have h2 : enc "attendee" = 97 :: enc "ttendee" := by decide
  rw [pyTitle, pyLower, h1, h2]
  exact titleAux_false_iff v (enc "ttendee") 97 (by norm_num) (by norm_num) (by decide)

/-- `str.title()` sends a value to `'Guest'` exactly when `str.lower()`
sends it to `'guest'`. -/
theorem pyTitle_guest_iff (v : List Nat) :
    pyTitle v = enc "Guest" ↔ pyLower v = enc "guest" := by
  have h1 : enc "Guest" = (103 - 32) :: enc "uest" := by decide
  have h2 : enc "guest" = 103 :: enc "uest" := by decide
  rw [pyTitle, pyLower, h1, h2]
  exact titleAux_false_iff v (enc "uest") 103 (by norm_num) (by norm_num) (by decide)

/-- The title-cased Attendee/Guest membership test of the source is the
case-insensitive membership test of the spec. -/
theorem titleAG_iff_lowerAG (v : List Nat) :
    (pyTitle v = enc "Attendee" ∨ pyTitle v = enc "Guest") ↔
    (pyLower v = enc "attendee" ∨ pyLower v = enc "guest") :=
  or_congr (pyTitle_attendee_iff v) (pyTitle_guest_iff v)

/-- The first row with the key of the head of a list is that head. -/
theorem firstRowWith_cons_self {κ : Type} [DecidableEq κ] (key : Row → κ)
    (r : Row) (rs : List Row) : firstRowWith key (key r) (r :: rs) = r := by
  simp [firstRowWith, List.filter_cons]

/-- Rows with a different key do not affect the first row with a key. -/
theorem firstRowWith_cons_ne {κ : Type} [DecidableEq κ] (key : Row → κ) (k : κ)
    (r : Row) (rs : List Row) (h : key r ≠ k) :
    firstRowWith key k (r :: rs) = firstRowWith key k rs := by
  simp [firstRowWith, List.filter_cons, h]

/-- Deduplicating rows by key keeps, for each distinct key in order of
first occurrence, exactly the first row with that key. -/
theorem dropDupByAux_eq {κ : Type} [DecidableEq κ] (key : Row → κ) (seen : List κ)
    (rows : List Row) :
    dropDupByAux key seen rows =
      (dedupFirstAux seen (rows.map key)).map (fun k => firstRowWith key k rows) := by
  induction rows generalizing seen with
  | nil => rfl
  | cons r rs ih =>
    by_cases h : key r ∈ seen
    · simp only [dropDupByAux, if_pos h, List.map_cons, dedupFirstAux, ih]
      refine List.map_congr_left (fun k hk => ?_)
      have hkn : k ∉ seen := ((mem_dedupFirstAux k seen (rs.map key)).mp hk).2
      exact (firstRowWith_cons_ne key k r rs (fun he => hkn (he ▸ h))).symm
    · simp only [dropDupByAux, if_neg h, List.map_cons, dedupFirstAux, ih,
        firstRowWith_cons_self]
      refine congrArg (fun l => r :: l) ?_
      refine List.map_congr_left (fun k hk => ?_)
      have hkn : k ∉ key r :: seen :=
        ((mem_dedupFirstAux k (key r :: seen) (rs.map key)).mp hk).2
      have hne : key r ≠ k := fun he => hkn (he ▸ List.mem_cons_self (key r) seen)
      exact (firstRowWith_cons_ne key k r rs hne).symm

/-- Appending the same value twice leaves keep-first deduplication where
appending it once leaves it. -/
theorem dedupFirstAux_append_pair {α : Type} [DecidableEq α] (seen l : List α) (a : α) :
    dedupFirstAux seen (l ++ [a, a]) = dedupFirstAux seen (l ++ [a]) := by
  induction l generalizing seen with
  | nil =>
    by_cases h : a ∈ seen
    · simp [dedupFirstAux, h]
    · simp [dedupFirstAux, h]
  | cons b bs ih =>
    by_cases h : b ∈ seen <;> simp [dedupFirstAux, h, ih]

/-- A second row with an already present key cannot change any group's
first row. -/
theorem firstRowWith_append_pair {κ : Type} [DecidableEq κ] (key : Row → κ) (k : κ)
    (rows : List Row) (r1 r2 : Row) (h : key r1 = key r2) :
    firstRowWith key k (rows ++ [r1, r2]) = firstRowWith key k (rows ++ [r1]) := by
  simp only [firstRowWith, List.filter_append]
  by_cases h1 : key r1 = k
  · have h2 : key r2 = k := h ▸ h1
    simp only [List.filter_cons, h1, h2, decide_eq_true_eq, if_true, if_pos]
    cases rows.filter (fun r => decide (key r = k)) <;> simp
  · have h2 : ¬ key r2 = k := fun hk => h1 (by rw [h, hk])
    simp [List.filter_cons, h1, h2]

/-- Python `split` never returns an empty list of pieces. -/
theorem pySplit_ne_nil (sep : Nat) (s : List Nat) : pySplit sep s ≠ [] := by
  cases s with
  | nil => simp [pySplit]
  | cons c cs =>
    by_cases h : c = sep
    · simp [pySplit, h]
    · simp only [pySplit, if_neg h]
      cases h' : pySplit sep cs <;> simp

/-- The first piece of a Python `split` is the prefix of the string up to
(and excluding) the first separator. -/
theorem headD_pySplit (sep : Nat) (s : List Nat) :
    (pySplit sep s).headD [] = s.takeWhile (fun c => !(decide (c = sep))) := by
  induction s with
  | nil => rfl
  | cons c cs ih =>
    by_cases h : c = sep
    · simp [pySplit, h, List.takeWhile_cons]
    · simp only [pySplit, if_neg h]
      cases h' : pySplit sep cs with
      | nil => exact absurd h' (pySplit_ne_nil sep cs)
      | cons p ps =>
        have hp : p = cs.takeWhile (fun c => !(decide (c = sep))) := by
          rw [← ih, h']; rfl
        simp [List.takeWhile_cons, h, hp]

/-- Membership after sorted insertion. -/
theorem mem_insertSorted {α : Type} (le : α → α → Bool) (a x : α) (l : List α) :
    x ∈ insertSorted le a l ↔ x = a ∨ x ∈ l := by
  induction l with
  | nil => simp [insertSorted]
  | cons b bs ih =>
    by_cases h : le a b = true
    · simp [insertSorted, h]
    · simp only [insertSorted, if_neg h, List.mem_cons, ih]
      tauto

/-- Sorted insertion permutes consing. -/
theorem perm_insertSorted {α : Type} (le : α → α → Bool) (a : α) (l : List α) :
    List.Perm (insertSorted le a l) (a :: l) := by
  induction l with
  | nil => exact List.Perm.refl _
  | cons b bs ih =>
    by_cases h : le a b = true
    · simp [insertSorted, h]
    · simp only [insertSorted, if_neg h]
      exact (ih.cons b).trans (List.Perm.swap a b bs)

/-- Insertion sort permutes its input. -/
theorem perm_insertionSortBy {α : Type} (le : α → α → Bool) (l : List α) :
    List.Perm (insertionSortBy le l) l := by
  induction l with
  | nil => exact List.Perm.refl _
  | cons a as ih =>
    exact (perm_insertSorted le a (insertionSortBy le as)).trans (ih.cons a)

/-- Sorted insertion preserves pairwise ordering, for a total transitive
comparison. -/
theorem pairwise_insertSorted {α : Type} (le : α → α → Bool) (P : α → α → Prop)
    (hle : ∀ x y, le x y = true → P x y)
    (htot : ∀ x y, le x y = false → P y x)
    (htrans : ∀ x y z, P x y → P y z → P x z)
    (a : α) (l : List α) (hl : l.Pairwise P) :
    (insertSorted le a l).Pairwise P := by
  induction l with
  | nil => simp [insertSorted]
  | cons b bs ih =>
    rcases List.pairwise_cons.mp hl with ⟨hb, hbs⟩
    by_cases h : le a b = true
    · simp only [insertSorted, if_pos h]
      refine List.pairwise_cons.mpr ⟨?_, hl⟩
      intro x hx
      rcases List.mem_cons.mp hx with hxb | hxbs
      · exact hxb ▸ hle a b h
      · exact htrans a b x (hle a b h) (hb x hxbs)
    · simp only [insertSorted, if_neg h]
      refine List.pairwise_cons.mpr ⟨?_, ih hbs⟩
      intro x hx
      rcases (mem_insertSorted le a x bs).mp hx with hxa | hxbs
      · exact hxa ▸ htot a b (Bool.eq_false_iff.mpr h)
      · exact hb x hxbs

/-- Insertion sort sorts, for a total transitive comparison. -/
theorem pairwise_insertionSortBy {α : Type} (le : α → α → Bool) (P : α → α → Prop)
    (hle : ∀ x y, le x y = true → P x y)
    (htot : ∀ x y, le x y = false → P y x)
    (htrans : ∀ x y z, P x y → P y z → P x z)
    (l : List α) : (insertionSortBy le l).Pairwise P := by
  induction l with
  | nil => simp [insertionSortBy]
  | cons a as ih =>
    exact pairwise_insertSorted le P hle htot htrans a (insertionSortBy le as) ih

/-- A list begins with itself followed by anything. -/
theorem leadsWith_append (p s : List Nat) : leadsWith p (p ++ s) = true := by
  induction p with
  | nil => rfl
  | cons x xs ih => simp [leadsWith, ih]

/-- A list beginning with `p` is `p` followed by its remainder. -/
theorem eq_append_of_leadsWith (p s : List Nat) (h : leadsWith p s = true) :
    s = p ++ s.drop p.length := by
  induction p generalizing s with
  | nil => simp
  | cons x xs ih =>
    cases s with
    | nil => simp [leadsWith] at h
    | cons c cs =>
      simp only [leadsWith, Bool.and_eq_true, decide_eq_true_eq] at h
      obtain ⟨h1, h2⟩ := h
      simpa [h1, List.length_cons, List.drop_succ_cons] using
        congrArg (fun l => c :: l) (ih cs h2)

/-- The skip counter of the replacement scanner consumes exactly as many
characters as its value. -/
theorem replAux_skip (pat xs ds : List Nat) :
    replAux pat (xs ++ ds) xs.length = replAux pat ds 0 := by
  induction xs with
  | nil => rfl
  | cons x xs ih => simpa [replAux] using ih

/-- Scanning an all-digit string for the literal `'Region '` deletes
nothing. -/
theorem replAux_digits (ds : List Nat) (h : allDigits ds = true) :
    replAux regionPat ds 0 = ds := by
  induction ds with
  | nil => rfl
  | cons d ds ih =>
    simp only [allDigits, List.all_cons, Bool.and_eq_true] at h
    obtain ⟨hd, hds⟩ := h
    have hd' : 48 ≤ d ∧ d ≤ 57 := by simpa [digitN] using hd
    have hlead : leadsWith regionPat (d :: ds) = false := by
      have : regionPat = 82 :: enc "egion " := by decide
      rw [this]
      simp only [leadsWith, Bool.and_eq_false_iff, decide_eq_false_iff_not]
      left; omega
    simp only [replAux, hlead, Bool.false_eq_true, if_false]
    rw [ih hds]

/-- Whitespace stripping is the identity on whitespace-free strings. -/
theorem pyStrip_eq_self (s : List Nat) (h : ∀ x ∈ s, isSpaceN x = false) :
    pyStrip s = s := by
  have hdrop : ∀ (l : List Nat), (∀ x ∈ l, isSpaceN x = false) →
      l.dropWhile isSpaceN = l := by
    intro l hl
    cases l with
    | nil => rfl
    | cons a as => rw [List.dropWhile_cons, hl a (List.mem_cons_self a as)]; simp
  rw [pyStrip, hdrop s h, hdrop s.reverse (fun x hx => h x (List.mem_reverse.mp hx)),
    List.reverse_reverse]

/-- Python `int` accepts any nonempty all-digit string. -/
theorem pyInt_digits (ds : List Nat) (hne : ds ≠ []) (h : allDigits ds = true) :
    pyInt ds = some ((digitsVal ds : Int)) := by
  have hsp : ∀ x ∈ ds, isSpaceN x = false := by
    intro x hx
    have := (List.all_eq_true.mp h) x hx
    have hx' : 48 ≤ x ∧ x ≤ 57 := by simpa [digitN] using this
    simp only [isSpaceN, decide_eq_false_iff_not]
    omega
  cases ds with
  | nil => exact absurd rfl hne
  | cons d ds =>
    have hd : 48 ≤ d ∧ d ≤ 57 := by
      have := (List.all_eq_true.mp h) d (List.mem_cons_self d ds)
      simpa [digitN] using this
    have hstrip : pyStrip (d :: ds) = d :: ds := pyStrip_eq_self _ hsp
    have hA : ¬ (d = 43 ∧ ds ≠ [] ∧ allDigits ds = true) := by rintro ⟨hc, -⟩; omega
    have hB : ¬ (d = 45 ∧ ds ≠ [] ∧ allDigits ds = true) := by rintro ⟨hc, -⟩; omega
    have hC : d :: ds ≠ [] ∧ allDigits (d :: ds) = true := ⟨by simp, h⟩
    simp only [pyInt, hstrip, List.headD_cons, List.tail_cons]
    rw [if_neg hA, if_neg hB, if_pos hC]

/-- Scanning starts by deleting the pattern when the string begins with
it. -/
theorem replAux_self_append (pat ds : List Nat) (hne : pat ≠ []) :
    replAux pat (pat ++ ds) 0 = replAux pat ds 0 := by
  cases pat with
  | nil => exact absurd rfl hne
  | cons p ps =>
    have hlead : leadsWith (p :: ps) (p :: (ps ++ ds)) = true := by
      have := leadsWith_append (p :: ps) ds
      rwa [List.cons_append] at this
    rw [List.cons_append]
    simp only [replAux, hlead, if_true]
    rw [show (p :: ps).length - 1 = ps.length from by simp]
    exact replAux_skip (p :: ps) ps ds

/-- The region sort key parses every value of the form `'Region '` followed
by digits. -/
theorem regionKey_form (s : List Nat) (h : regionForm s) :
    regionKey s = some ((digitsVal (s.drop 7) : Int)) := by
  obtain ⟨h1, h2, h3⟩ := h
  have hlen : regionPat.length = 7 := by decide
  have hs : s = regionPat ++ s.drop 7 := by
    have := eq_append_of_leadsWith regionPat s h1
    rwa [hlen] at this
  have hpat : regionPat ≠ [] := by decide
  rw [regionKey, pyReplaceAll, if_neg hpat]
  conv_lhs => rw [hs]
  rw [replAux_self_append regionPat _ hpat, replAux_digits _ h3]
  exact pyInt_digits _ h2 h3

/-- C1: partition completeness — for every record set and classification
list, the nursing and non-nursing attendee counts sum exactly to the total
attendee count, and the nursing and non-nursing organization counts sum
exactly to the total organization count. -/
theorem c1_partition_completeness (nl : List (List Nat)) (rows : List Row) :
    nursing_facility_attendees nl rows + non_nursing_facility_attendees nl rows
      = total_attendees rows ∧
    nursing_facility_orgs nl rows + non_nursing_facility_orgs nl rows
      = total_orgs rows := by
  constructor
  · exact length_filter_add_length_filter_not (attendee_filtered_df rows)
      (fun r => decide (r.workforce ∈ nl))
  · rw [non_nursing_facility_orgs]
    omega

/-- C2: session-based registrant count — `total_registrants` equals the sum,
over the distinct `(webinar id, actual start time)` session keys, of the
`registrations` value of the first row of each session, so repeated rows of
one session are counted once. -/
theorem c2_session_registrants (rows : List Row) :
    registrants rows = sessionRegSum rows := by
  rw [registrants, sessionRegSum, dropDupBy, dropDupByAux_eq, dedupFirst, List.map_map]
  rfl

/-- C3: duration dedup — appending a second row of an already present
webinar id leaves `total_session_duration_hours` unchanged: each webinar id
contributes the duration of its first row exactly once, never once per
row. -/
theorem c3_duration_dedup (rows : List Row) (r1 r2 : Row)
    (h : r1.webinar_id = r2.webinar_id) :
    total_webinar_duration (rows ++ [r1, r2]) = total_webinar_duration (rows ++ [r1]) := by
  rw [total_webinar_duration, total_webinar_duration]
  have hkeys : dedupFirst ((rows ++ [r1, r2]).map Row.webinar_id)
      = dedupFirst ((rows ++ [r1]).map Row.webinar_id) := by
    simp only [List.map_append, List.map_cons, List.map_nil, ← h, dedupFirst]
    exact dedupFirstAux_append_pair [] (rows.map Row.webinar_id) r1.webinar_id
  rw [hkeys]
  refine congrArg (fun q => q / 60) (congrArg List.sum (List.map_congr_left fun k hk => ?_))
  rw [firstRowWith_append_pair Row.webinar_id k rows r1 r2 h]

/-- Witness for C3 at concrete rows: two rows of webinar `W9` with durations
60 and 90 contribute as the first one alone does. -/
theorem c3_duration_dedup_witness :
    total_webinar_duration ([baseRow] ++ [c3rowA, c3rowB])
      = total_webinar_duration ([baseRow] ++ [c3rowA]) :=
  c3_duration_dedup [baseRow] c3rowA c3rowB rfl

/-- C4: classification exactness — `facility_type` is `'Nursing Facility'`
exactly when the workforce string is an exact element of the list, and the
concrete variants of a list entry with a trailing blank or lower-cased are
classified `'Non-Nursing Facility'` against the source's list. -/
theorem c4_classification_exactness :
    (∀ (nl : List (List Nat)) (w : List Nat),
        facility_type nl w = enc "Nursing Facility" ↔ w ∈ nl)
    ∧ facility_type nursing_list (enc "Nursing Facility ") = enc "Non-Nursing Facility"
    ∧ facility_type nursing_list (enc "nursing facility") = enc "Non-Nursing Facility" := by
  refine ⟨fun nl w => ?_, by decide, by decide⟩
  by_cases h : w ∈ nl
  · simp [facility_type, h]
  · simp only [facility_type, if_neg h]
    constructor
    · intro he
      exact absurd he (by decide)
    · intro hw
      exact absurd hw h

/-- C5: engagement hours — `total_engagement_hours` is the sum of
`time in session (minutes)` over exactly the rows whose `attendee type`
compares case-insensitively into `{attendee, guest}` and whose `attended`
value is exactly `'Yes'`, divided by 60. -/
theorem c5_engagement_hours (rows : List Row) :
    total_engagement_hours rows =
      ((rows.filter (fun r =>
          decide ((pyLower r.attendee_type = enc "attendee" ∨
                   pyLower r.attendee_type = enc "guest") ∧
                  r.attended = enc "Yes"))).map Row.time_in_session).sum / 60 := by
  rw [total_engagement_hours, attendee_filtered_df]
  rw [List.filter_congr (fun r hr => ?_)]
  exact decide_eq_decide.mpr (and_congr_left' (titleAG_iff_lowerAG r.attendee_type))

/-- C6: zero-fill of the merged monthly workforce table — every
`(yearmonth, facility_type)` key carried by some row appears in the merged
table, and when no Attendee/Guest row of that key has `attended = 'Yes'`
its attendance value is 0. -/
theorem c6_zero_fill (ym : Row → List Nat) (nl : List (List Nat)) (rows : List Row)
    (k : List Nat × List Nat)
    (hreg : ∃ r ∈ rows, (ym r, facility_type nl r.workforce) = k)
    (hatt : ∀ r ∈ rows, ¬((pyTitle r.attendee_type = enc "Attendee" ∨
        pyTitle r.attendee_type = enc "Guest") ∧ r.attended = enc "Yes" ∧
        (ym r, facility_type nl r.workforce) = k)) :
    ∃ regv, (k, regv, 0) ∈ workforce_detail_monthly ym nl rows := by
  obtain ⟨r0, hr0, hk0⟩ := hreg
  have hkmem : k ∈ dedupFirst (rows.map (fun r => (ym r, facility_type nl r.workforce))) :=
    (mem_dedupFirst _ _).mpr (List.mem_map.mpr ⟨r0, hr0, hk0⟩)
  have hgrp : (k, rows.filter (fun r =>
      decide ((ym r, facility_type nl r.workforce) = k))) ∈
      groupsOf (fun r => (ym r, facility_type nl r.workforce)) rows :=
    List.mem_map.mpr ⟨k, hkmem, rfl⟩
  have hregmem : (k, (rows.filter (fun r =>
      decide ((ym r, facility_type nl r.workforce) = k))).countP
        (fun r => decide (pyLower r.attendee_type = enc "attendee"))) ∈
      registrations_by_workforce ym nl rows := by
    rw [registrations_by_workforce]
    exact List.mem_map.mpr ⟨_, hgrp, rfl⟩
  have hlook : lookupKey (attendance_by_workforce ym nl rows) k = none := by
    refine lookupKey_eq_none _ _ (fun hk => ?_)
    rw [attendance_by_workforce, List.map_map] at hk
    have hk' : k ∈ (groupsOf (fun r => (ym r, facility_type nl r.workforce))
        ((attendee_guest_df rows).filter
          (fun r => decide (r.attended = enc "Yes")))).map Prod.fst := by
      simpa [Function.comp_def] using hk
    rw [map_fst_groupsOf, mem_dedupFirst] at hk'
    obtain ⟨r1, hr1, hkr1⟩ := List.mem_map.mp hk'
    rw [attendee_guest_df, List.mem_filter] at hr1
    obtain ⟨hr1a, hr1yes⟩ := hr1
    rw [List.mem_filter] at hr1a
    obtain ⟨hr1rows, hr1AG⟩ := hr1a
    exact hatt r1 hr1rows
      ⟨of_decide_eq_true hr1AG, of_decide_eq_true hr1yes, hkr1⟩
  refine ⟨(rows.filter (fun r =>
      decide ((ym r, facility_type nl r.workforce) = k))).countP
      (fun r => decide (pyLower r.attendee_type = enc "attendee")), ?_⟩
  rw [workforce_detail_monthly]
  refine List.mem_map.mpr ⟨_, hregmem, ?_⟩
  simp [hlook]

/-- Witness for C6 at a concrete record set: one registered, non-attending
row still yields a merged entry for its key with attendance 0. -/
theorem c6_zero_fill_witness :
    ∃ regv, ((enc "2024", enc "Non-Nursing Facility"), regv, 0) ∈
      workforce_detail_monthly (fun r => r.year) nursing_list [c6row] :=
  c6_zero_fill (fun r => r.year) nursing_list [c6row]
    (enc "2024", enc "Non-Nursing Facility") (by decide) (by decide)

/-- C7 counterexample: in the by-region table, two non-attendee rows of one
region with one shared email produce a registration value of 2, which is
the bare row count of the group and is neither the distinct-email count (1)
nor an attendee-type-filtered count (0 for both filter variants). -/
theorem c7_counterexample :
    regional_performance c7rows = [(enc "Region 1", 2, 0)]
    ∧ nunique ((c7rows.filter (fun r =>
        decide (r.region = some (enc "Region 1")))).map Row.email) = 1
    ∧ (c7rows.filter (fun r => decide (r.region = some (enc "Region 1")))).countP
        (fun r => decide (pyLower r.attendee_type = enc "attendee")) = 0
    ∧ (c7rows.filter (fun r => decide (r.region = some (enc "Region 1")))).countP
        (fun r => decide (pyTitle r.attendee_type = enc "Attendee" ∨
                          pyTitle r.attendee_type = enc "Guest")) = 0
    ∧ (2 : Nat) ≠ 1 ∧ (2 : Nat) ≠ 0 := by
  refine ⟨by decide, by decide, by decide, by decide, by decide, by decide⟩

/-- C7 as amended: the by-month and region-by-month tables use
attendee-type-filtered registration counts (lower-cased equality with
`'attendee'`, respectively the Attendee/Guest pre-filter), but the
by-region table's registration column is the bare count of all rows of the
group regardless of attendee type. -/
theorem c7_amended (ym : Row → List Nat) (reg : List Nat) (rows : List Row) :
    (∀ e ∈ monthly_data ym rows, e.2.1 =
        ((rows.filter (fun r => decide (ym r = e.1))).filter
          (fun r => decide (pyLower r.attendee_type = enc "attendee"))).length)
    ∧ (∀ e ∈ monthly_comp ym reg rows, e.2.1 =
        ((rows.filter (fun r => decide (r.region = some reg) &&
            decide (pyTitle r.attendee_type = enc "Attendee" ∨
                    pyTitle r.attendee_type = enc "Guest"))).filter
          (fun r => decide (ym r = e.1))).length)
    ∧ (∀ e ∈ regional_performance rows, e.2.1 =
        (rows.filter (fun r => decide (r.region = some e.1))).length) := by
  refine ⟨?_, ?_, ?_⟩
  · intro e he
    rw [monthly_data] at he
    obtain ⟨g, hg, rfl⟩ := List.mem_map.mp he
    rw [groupsOf] at hg
    obtain ⟨k, hk, rfl⟩ := List.mem_map.mp hg
    exact List.countP_eq_length_filter _ _
  · intro e he
    rw [monthly_comp] at he
    obtain ⟨g, hg, rfl⟩ := List.mem_map.mp he
    rw [groupsOf] at hg
    obtain ⟨k, hk, rfl⟩ := List.mem_map.mp hg
    rfl
  · intro e he
    rw [regional_performance] at he
    obtain ⟨g, hg, rfl⟩ := List.mem_map.mp he
    rfl

/-- Witness for C7 as amended, at a one-attendee record set and the monthly
entry it produces. -/
theorem c7_amended_witness :
    ((enc "2024", 1, 1) : List Nat × Nat × Nat).2.1 =
      ((c7wrows.filter (fun r => decide (r.year = enc "2024"))).filter
        (fun r => decide (pyLower r.attendee_type = enc "attendee"))).length :=
  (c7_amended (fun r => r.year) (enc "Region 1") c7wrows).1
    (enc "2024", 1, 1) (by decide)

/-- The dashboard body with a missing KPI-block column crashes before any
KPI is displayed. -/
theorem dashBody_missing (d : DFrame) (rows : List Row) (pdfOk : Bool)
    (h : ∃ c ∈ kpiCols, c ∉ d.cols) :
    dashBody d rows pdfOk = ⟨none, pdfOk, false, false, true⟩ := by
  obtain ⟨c, hc, hcn⟩ := h
  have hall : kpiCols.all (fun c => decide (c ∈ d.cols)) = false := by
    by_contra hne
    rw [Bool.not_eq_false] at hne
    exact hcn (of_decide_eq_true (List.all_eq_true.mp hne c hc))
  rw [dashBody]
  simp [hall]

/-- The dashboard body with every KPI-block column present computes the
full KPI set, then halts at the year-month check only afterwards. -/
theorem dashBody_present (d : DFrame) (rows : List Row) (pdfOk : Bool)
    (h : ∀ c ∈ kpiCols, c ∈ d.cols) :
    dashBody d rows pdfOk =
      if "year" ∈ d.cols ∧ "month" ∈ d.cols then
        ⟨some (computeKPIs nursing_list rows), pdfOk, true,
          decide ("region" ∈ d.cols), false⟩
      else ⟨some (computeKPIs nursing_list rows), pdfOk, false, false, true⟩ := by
  have hall : kpiCols.all (fun c => decide (c ∈ d.cols)) = true :=
    List.all_eq_true.mpr (fun c hc => decide_eq_true (h c hc))
  rw [dashBody]
  simp [hall]

/-- C8 as amended: a missing KPI-block column aborts the script with no KPI
output; with all KPI-block columns present but `year` or `month` missing
the script still produces and displays the full KPI set before halting at
the year-month check (so it does not fail fast); a missing `region` column
crashes during PDF generation before any KPI output; and with everything
present the whole dashboard renders. -/
theorem c8_amended (d : DFrame) :
    ((∃ c ∈ kpiCols, c ∉ d.cols) →
        (runDashboard d).kpis = none ∧ (runDashboard d).halted = true)
    ∧ ((∀ c ∈ kpiCols, c ∈ d.cols) → ("year" ∉ d.cols ∨ "month" ∉ d.cols) →
        (runDashboard d).kpis.isSome = true ∧ (runDashboard d).monthlyDone = false ∧
        (runDashboard d).halted = true)
    ∧ ((∀ c ∈ kpiCols, c ∈ d.cols) → "year" ∈ d.cols → "month" ∈ d.cols →
        "region" ∉ d.cols →
        (runDashboard d).kpis = none ∧ (runDashboard d).halted = true)
    ∧ ((∀ c ∈ kpiCols, c ∈ d.cols) → "year" ∈ d.cols → "month" ∈ d.cols →
        "region" ∈ d.cols →
        (runDashboard d).kpis.isSome = true ∧ (runDashboard d).monthlyDone = true ∧
        (runDashboard d).regionalDone = true ∧ (runDashboard d).halted = false) := by
  refine ⟨?_, ?_, ?_, ?_⟩
  · intro hex
    unfold runDashboard
    split_ifs <;>
      first
        | exact ⟨rfl, rfl⟩
        | (rw [dashBody_missing _ _ _ hex]; exact ⟨rfl, rfl⟩)
  · intro hall hym
    have hdur : "actual duration (minutes)" ∈ d.cols := hall _ (by decide)
    have htime : "time in session (minutes)" ∈ d.cols := hall _ (by decide)
    have hcond : ¬("year" ∈ d.cols ∧ "month" ∈ d.cols ∧ "workforce" ∈ d.cols) := by
      rcases hym with hy | hm <;> tauto
    have hym2 : ¬("year" ∈ d.cols ∧ "month" ∈ d.cols) := by
      rcases hym with hy | hm <;> tauto
    unfold runDashboard
    rw [if_pos ⟨hdur, htime⟩, if_neg hcond, dashBody_present _ _ _ hall, if_neg hym2]
    exact ⟨rfl, rfl, rfl⟩
  · intro hall hy hm hr
    have hdur : "actual duration (minutes)" ∈ d.cols := hall _ (by decide)
    have htime : "time in session (minutes)" ∈ d.cols := hall _ (by decide)
    have hwf : "workforce" ∈ d.cols := hall _ (by decide)
    have hcond3 : ¬("attendee type" ∈ d.cols ∧ "attended" ∈ d.cols ∧
        "region" ∈ d.cols) := by tauto
    unfold runDashboard
    rw [if_pos ⟨hdur, htime⟩, if_pos ⟨hy, hm, hwf⟩, if_neg hcond3]
    exact ⟨rfl, rfl⟩
  · intro hall hy hm hr
    have hdur : "actual duration (minutes)" ∈ d.cols := hall _ (by decide)
    have htime : "time in session (minutes)" ∈ d.cols := hall _ (by decide)
    have hwf : "workforce" ∈ d.cols := hall _ (by decide)
    have hat : "attendee type" ∈ d.cols := hall _ (by decide)
    have hatd : "attended" ∈ d.cols := hall _ (by decide)
    unfold runDashboard
    rw [if_pos ⟨hdur, htime⟩, if_pos ⟨hy, hm, hwf⟩, if_pos ⟨hat, hatd, hr⟩,
      dashBody_present _ _ _ hall, if_pos ⟨hy, hm⟩]
    exact ⟨rfl, rfl, decide_eq_true hr, rfl⟩

/-- C8 counterexample: a data frame with every KPI-block column but no
`year` column produces (and displays) the full KPI set before the run
halts, so the missing required column is not raised before aggregation and
a KPI set is produced. -/
theorem c8_counterexample :
    "year" ∉ c8frame.cols ∧ (runDashboard c8frame).kpis.isSome = true ∧
    (runDashboard c8frame).halted = true :=
  ⟨by decide, rfl, rfl⟩

/-- Witness for C8 as amended at the concrete frame lacking `year`. -/
theorem c8_amended_witness :
    (runDashboard c8frame).kpis.isSome = true ∧
    (runDashboard c8frame).monthlyDone = false ∧
    (runDashboard c8frame).halted = true :=
  (c8_amended c8frame).2.1 (by decide) (by decide)

/-- C9: region value truncation at load — the loaded region value is the
whitespace-trimmed substring of the original before its first `'-'`, and
when a region column exists every row of the loaded frame (the frame all
downstream grouping, filtering and region lists read) carries the
truncated value. -/
theorem c9_region_truncation (s : List Nat) (d : DFrame) :
    regionShorten s = pyStrip (s.takeWhile (fun c => !(decide (c = 45))))
    ∧ ("region" ∈ d.cols → (load_data d).rows = d.rows.map (fun r =>
        { r with region := r.region.map (fun v =>
            pyStrip (v.takeWhile (fun c => !(decide (c = 45))))) })) := by
  have hfun : ∀ v, regionShorten v =
      pyStrip (v.takeWhile (fun c => !(decide (c = 45)))) := fun v => by
    rw [regionShorten, headD_pySplit]
  refine ⟨hfun s, fun h => ?_⟩
  rw [load_data, if_pos h]
  rw [funext hfun]

/-- Witness for C9 at a concrete one-row frame with a hyphenated region
value. -/
theorem c9_region_truncation_witness :
    (load_data c9frame).rows = c9frame.rows.map (fun r =>
      { r with region := r.region.map (fun v =>
          pyStrip (v.takeWhile (fun c => !(decide (c = 45))))) }) :=
  (c9_region_truncation [] c9frame).2 (by decide)

/-- C10 as amended: when every distinct non-null region value has the exact
form `'Region '` followed by decimal digits, the region sort succeeds and
returns a permutation of the values ordered by the parsed integer key; the
sort does not, however, require that form — any value whose key parses is
accepted (see the counterexample). -/
theorem c10_amended (rows : List Row)
    (h : ∀ s ∈ distinctRegions rows, regionForm s) :
    ∃ out, sorted_regions (distinctRegions rows) = some out ∧
      List.Perm (distinctRegions rows) out ∧
      out.Pairwise (fun s t => keyInt s ≤ keyInt t) := by
  have hall : (distinctRegions rows).all (fun s => (regionKey s).isSome) = true := by
    refine List.all_eq_true.mpr (fun s hs => ?_)
    rw [regionKey_form s (h s hs)]
    rfl
  refine ⟨insertionSortBy leKey (distinctRegions rows), ?_, ?_, ?_⟩
  · rw [sorted_regions, if_pos hall]
  · exact (perm_insertionSortBy leKey _).symm
  · refine pairwise_insertionSortBy leKey (fun s t => keyInt s ≤ keyInt t)
      (fun x y hxy => ?_) (fun x y hxy => ?_)
      (fun x y z hxy hyz => le_trans hxy hyz) _
    · rw [leKey] at hxy
      exact of_decide_eq_true hxy
    · rw [leKey] at hxy
      exact le_of_not_le (of_decide_eq_false hxy)

/-- C10 counterexample: the bare region value `'7'` lacks the form
`'Region '` followed by an integer, yet the region sort succeeds on it
instead of raising — `int('7'.replace('Region ', ''))` parses. -/
theorem c10_counterexample :
    ¬ regionForm (enc "7") ∧
    sorted_regions (distinctRegions c10rows) = some [enc "7"] := by
  constructor
  · decide
  · decide

/-- Witness for C10 as amended at a record set with regions `'Region 10'`
and `'Region 2'`. -/
theorem c10_amended_witness :
    ∃ out, sorted_regions (distinctRegions c10wrows) = some out ∧
      List.Perm (distinctRegions c10wrows) out ∧
      out.Pairwise (fun s t => keyInt s ≤ keyInt t) :=
  c10_amended c10wrows (by decide)

end Dataviz
